import Mathlib

/-!
Verification of the incremental JSON lexer from qobject/json-lexer.c.

The lexer is a table-driven automaton: `lexTable` embeds the 2D array
`json_lexer[][256]` (designated initializers, later entries overriding
earlier ones, everything else defaulting to `IN_ERROR` = 0), and
`json_lexer_feed_char` / `json_lexer_feed` / `json_lexer_flush` embed the
driver functions of the same names.  Bytes are `Nat` values below 256;
the emitted-token callback `json_message_process_token` is modelled by
returning the list of emitted tokens.
-/

set_option maxRecDepth 100000
set_option maxHeartbeats 1600000

namespace JsonLexer

/-- States of `enum json_lexer_state`.  `IN_ERROR` must be 0 because the
transition table relies on default (zero) initialization for every entry
not named by a designated initializer. -/
def IN_ERROR : Nat := 0

def IN_DQ_STRING_ESCAPE : Nat := 1

def IN_DQ_STRING : Nat := 2

def IN_SQ_STRING_ESCAPE : Nat := 3

def IN_SQ_STRING : Nat := 4

def IN_ZERO : Nat := 5

def IN_EXP_DIGITS : Nat := 6

def IN_EXP_SIGN : Nat := 7

def IN_EXP_E : Nat := 8

def IN_MANTISSA : Nat := 9

def IN_MANTISSA_DIGITS : Nat := 10

def IN_DIGITS : Nat := 11

def IN_SIGN : Nat := 12

def IN_KEYWORD : Nat := 13

def IN_INTERP : Nat := 14

def IN_WHITESPACE : Nat := 15

def IN_START : Nat := 16

def IN_START_INTERP : Nat := 17

/-- Modelled from the spec: the token-tag enum (`JSONTokenType`) lives in a
header that is not part of the sources here; per the build assertion
`JSON_MIN > IN_START_INTERP` the tags are numerically above every lexer
state, and they are consecutive distinct `uint8_t` values starting at
`JSON_MIN`.  The concrete numbers below only matter through being distinct
from each other and from the states. -/
def JSON_MIN : Nat := 100

def JSON_LCURLY : Nat := 100

def JSON_RCURLY : Nat := 101

def JSON_LSQUARE : Nat := 102

def JSON_RSQUARE : Nat := 103

def JSON_COLON : Nat := 104

def JSON_COMMA : Nat := 105

def JSON_INTEGER : Nat := 106

def JSON_FLOAT : Nat := 107

def JSON_KEYWORD : Nat := 108

def JSON_STRING : Nat := 109

def JSON_INTERP : Nat := 110

def JSON_SKIP : Nat := 111

def JSON_ERROR : Nat := 112

def JSON_END_OF_INPUT : Nat := 113

/-- `MAX_TOKEN_SIZE` = `64ULL << 20`, i.e. 64 MiB. -/
def MAX_TOKEN_SIZE : Nat := 64 * 2 ^ 20

/-- The transition table `json_lexer[][256]`.  Each row is translated from
its designated-initializer list; because in C a later initializer for the
same index overrides an earlier one, the explicit single-byte entries are
tested before the ranges they punch holes into, and the `TERMINAL(tag)`
macro (which fills `[0 ... 0x7F] = tag`) becomes the `ch ≤ 0x7F` fallback
tested after every explicit entry of the row.  Unnamed entries (notably all
of `0x80`-`0xFF` in `TERMINAL` rows, and every byte of an absent row) are
`IN_ERROR` = 0 by C default initialization. -/
def lexTable (state ch : Nat) : Nat :=
  if state = IN_DQ_STRING_ESCAPE then
    if 0x20 ≤ ch ∧ ch ≤ 0xFD then IN_DQ_STRING else IN_ERROR
  else if state = IN_DQ_STRING then
    if ch = 92 then IN_DQ_STRING_ESCAPE
    else if ch = 34 then JSON_STRING
    else if 0x20 ≤ ch ∧ ch ≤ 0xFD then IN_DQ_STRING
    else IN_ERROR
  else if state = IN_SQ_STRING_ESCAPE then
    if 0x20 ≤ ch ∧ ch ≤ 0xFD then IN_SQ_STRING else IN_ERROR
  else if state = IN_SQ_STRING then
    if ch = 92 then IN_SQ_STRING_ESCAPE
    else if ch = 39 then JSON_STRING
    else if 0x20 ≤ ch ∧ ch ≤ 0xFD then IN_SQ_STRING
    else IN_ERROR
  else if state = IN_ZERO then
    if 48 ≤ ch ∧ ch ≤ 57 then IN_ERROR
    else if ch = 46 then IN_MANTISSA
    else if ch ≤ 0x7F then JSON_INTEGER
    else IN_ERROR
  else if state = IN_EXP_DIGITS then
    if 48 ≤ ch ∧ ch ≤ 57 then IN_EXP_DIGITS
    else if ch ≤ 0x7F then JSON_FLOAT
    else IN_ERROR
  else if state = IN_EXP_SIGN then
    if 48 ≤ ch ∧ ch ≤ 57 then IN_EXP_DIGITS else IN_ERROR
  else if state = IN_EXP_E then
    if ch = 45 ∨ ch = 43 then IN_EXP_SIGN
    else if 48 ≤ ch ∧ ch ≤ 57 then IN_EXP_DIGITS
    else IN_ERROR
  else if state = IN_MANTISSA_DIGITS then
    if 48 ≤ ch ∧ ch ≤ 57 then IN_MANTISSA_DIGITS
    else if ch = 101 ∨ ch = 69 then IN_EXP_E
    else if ch ≤ 0x7F then JSON_FLOAT
    else IN_ERROR
  else if state = IN_MANTISSA then
    if 48 ≤ ch ∧ ch ≤ 57 then IN_MANTISSA_DIGITS else IN_ERROR
  else if state = IN_DIGITS then
    if 48 ≤ ch ∧ ch ≤ 57 then IN_DIGITS
    else if ch = 101 ∨ ch = 69 then IN_EXP_E
    else if ch = 46 then IN_MANTISSA
    else if ch ≤ 0x7F then JSON_INTEGER
    else IN_ERROR
  else if state = IN_SIGN then
    if ch = 48 then IN_ZERO
    else if 49 ≤ ch ∧ ch ≤ 57 then IN_DIGITS
    else IN_ERROR
  else if state = IN_KEYWORD then
    if 97 ≤ ch ∧ ch ≤ 122 then IN_KEYWORD
    else if ch ≤ 0x7F then JSON_KEYWORD
    else IN_ERROR
  else if state = IN_WHITESPACE then
    if ch = 32 ∨ ch = 9 ∨ ch = 13 ∨ ch = 10 then IN_WHITESPACE
    else if ch ≤ 0x7F then JSON_SKIP
    else IN_ERROR
  else if state = IN_INTERP then
    if 65 ≤ ch ∧ ch ≤ 90 then IN_INTERP
    else if 97 ≤ ch ∧ ch ≤ 122 then IN_INTERP
    else if 48 ≤ ch ∧ ch ≤ 57 then IN_INTERP
    else if ch ≤ 0x7F then JSON_INTERP
    else IN_ERROR
  else if state = IN_START ∨ state = IN_START_INTERP then
    if ch = 34 then IN_DQ_STRING
    else if ch = 39 then IN_SQ_STRING
    else if ch = 48 then IN_ZERO
    else if 49 ≤ ch ∧ ch ≤ 57 then IN_DIGITS
    else if ch = 45 then IN_SIGN
    else if ch = 123 then JSON_LCURLY
    else if ch = 125 then JSON_RCURLY
    else if ch = 91 then JSON_LSQUARE
    else if ch = 93 then JSON_RSQUARE
    else if ch = 44 then JSON_COMMA
    else if ch = 58 then JSON_COLON
    else if 97 ≤ ch ∧ ch ≤ 122 then IN_KEYWORD
    else if ch = 32 ∨ ch = 9 ∨ ch = 13 ∨ ch = 10 then IN_WHITESPACE
    else if state = IN_START_INTERP ∧ ch = 37 then IN_INTERP
    else IN_ERROR
  else IN_ERROR

/-- `TERMINAL_NEEDED_LOOKAHEAD(old_state, terminal)`:
`terminal != IN_ERROR && json_lexer[old_state][0] == terminal`. -/
def terminalNeededLookahead (old_state terminal : Nat) : Bool :=
  (terminal != IN_ERROR) && (lexTable old_state 0 == terminal)

/-- The `JSONLexer` struct: current state, the fixed post-token state,
the accumulating token text (`GString *token` as a byte list), and the
position counters. -/
structure JSONLexer where
  start_state : Nat
  state : Nat
  token : List Nat
  x : Nat
  y : Nat
deriving DecidableEq, Repr

/-- One invocation of the consumer callback `json_message_process_token`:
the token tag, the accumulated text handed over, and the position. -/
structure JSONToken where
  ttype : Nat
  text : List Nat
  x : Nat
  y : Nat
deriving DecidableEq, Repr

/-- Result of one iteration of the do-while loop in `json_lexer_feed_char`:
the updated lexer, the callback invocations made, whether the `IN_ERROR`
case took its early `return`, and whether the loop condition
`!char_consumed && !flush` asks for another iteration. -/
structure IterResult where
  lexer : JSONLexer
  emitted : List JSONToken
  abort : Bool
  again : Bool
deriving DecidableEq, Repr

/-- Result of the whole do-while loop. -/
structure FeedResult where
  lexer : JSONLexer
  emitted : List JSONToken
  abort : Bool
deriving DecidableEq, Repr

/-- `if (char_consumed && !flush) { g_string_append_c(lexer->token, ch); }`:
the token buffer after the conditional append. -/
def consumedToken (lexer : JSONLexer) (ch : Nat) (flush char_consumed : Bool) :
    List Nat :=
  if char_consumed && ! flush then lexer.token ++ [ch] else lexer.token

/-- The body of the do-while loop in `json_lexer_feed_char`, one iteration:
look the byte up in the table (through the `(uint8_t)ch` cast, i.e. mod
256), append it to the token unless the transition was a lookahead terminal
(or this is a flush), then dispatch on the kind of `new_state` exactly as
the C switch does. -/
def feedIter (lexer : JSONLexer) (ch : Nat) (flush : Bool) : IterResult :=
  let new_state := lexTable lexer.state (ch % 256)
  let char_consumed := ! terminalNeededLookahead lexer.state new_state
  let tok := consumedToken lexer ch flush char_consumed
  if new_state = JSON_LCURLY ∨ new_state = JSON_RCURLY ∨ new_state = JSON_LSQUARE ∨
     new_state = JSON_RSQUARE ∨ new_state = JSON_COLON ∨ new_state = JSON_COMMA ∨
     new_state = JSON_INTERP ∨ new_state = JSON_INTEGER ∨ new_state = JSON_FLOAT ∨
     new_state = JSON_KEYWORD ∨ new_state = JSON_STRING then
    { lexer := { lexer with token := [], state := lexer.start_state },
      emitted := [⟨new_state, tok, lexer.x, lexer.y⟩],
      abort := false,
      again := (! char_consumed) && (! flush) }
  else if new_state = JSON_SKIP then
    { lexer := { lexer with token := [], state := lexer.start_state },
      emitted := [],
      abort := false,
      again := (! char_consumed) && (! flush) }
  else if new_state = IN_ERROR then
    { lexer := { lexer with token := [], state := lexer.start_state },
      emitted := [⟨JSON_ERROR, tok, lexer.x, lexer.y⟩],
      abort := true,
      again := false }
  else
    { lexer := { lexer with token := tok, state := new_state },
      emitted := [],
      abort := false,
      again := (! char_consumed) && (! flush) }

/-- The do-while loop of `json_lexer_feed_char`, with explicit fuel (the
loop in the C source is not syntactically bounded; fuel 2 suffices, which
is proved below as a claim). -/
def feedLoop : Nat → JSONLexer → Nat → Bool → FeedResult
  | 0, lexer, _, _ => { lexer := lexer, emitted := [], abort := false }
  | fuel + 1, lexer, ch, flush =>
    let r := feedIter lexer ch flush
    if r.again then
      let r2 := feedLoop fuel r.lexer ch flush
      { lexer := r2.lexer, emitted := r.emitted ++ r2.emitted, abort := r2.abort }
    else
      { lexer := r.lexer, emitted := r.emitted, abort := r.abort }

/-- The position update at the top of `json_lexer_feed_char`:
`lexer->x++; if (ch == '\n') { lexer->x = 0; lexer->y++; }`. -/
def posUpd (lexer : JSONLexer) (ch : Nat) : JSONLexer :=
  if ch = 10 then { lexer with x := 0, y := lexer.y + 1 }
  else { lexer with x := lexer.x + 1 }

/-- `json_lexer_feed_char`: position update, the do-while loop (fuel 2),
then — unless the error case already returned — the `MAX_TOKEN_SIZE`
force-emit check. -/
def json_lexer_feed_char (lexer : JSONLexer) (ch : Nat) (flush : Bool) :
    JSONLexer × List JSONToken :=
  let r := feedLoop 2 (posUpd lexer ch) ch flush
  if r.abort then (r.lexer, r.emitted)
  else if MAX_TOKEN_SIZE < r.lexer.token.length then
    ({ r.lexer with token := [], state := r.lexer.start_state },
     r.emitted ++ [⟨r.lexer.state, r.lexer.token, r.lexer.x, r.lexer.y⟩])
  else (r.lexer, r.emitted)

/-- `json_lexer_feed`: feed every byte of the buffer in order, with
`flush = false`, concatenating the callback invocations. -/
def json_lexer_feed : JSONLexer → List Nat → JSONLexer × List JSONToken
  | lexer, [] => (lexer, [])
  | lexer, ch :: rest =>
    let r := json_lexer_feed_char lexer ch false
    let r2 := json_lexer_feed r.1 rest
    (r2.1, r.2 ++ r2.2)

/-- `json_lexer_flush`: resolve a pending partial token with a
`flush = true` feed of the NUL sentinel, then unconditionally emit the
end-of-input token carrying the (by then empty) token buffer. -/
def json_lexer_flush (lexer : JSONLexer) : JSONLexer × List JSONToken :=
  let r := if lexer.state ≠ lexer.start_state then json_lexer_feed_char lexer 0 true
           else (lexer, [])
  (r.1, r.2 ++ [⟨JSON_END_OF_INPUT, r.1.token, r.1.x, r.1.y⟩])

/-- `json_lexer_init`: both state fields start at the chosen start state,
the token buffer empty, the position zeroed. -/
def json_lexer_init (enable_interpolation : Bool) : JSONLexer :=
  { start_state := if enable_interpolation then IN_START_INTERP else IN_START,
    state := if enable_interpolation then IN_START_INTERP else IN_START,
    token := [],
    x := 0,
    y := 0 }

/-- The rows of the table built with the `TERMINAL` macro, i.e. the
"terminal-by-default" rows. -/
def isTerminalRow (st : Nat) : Bool :=
  (st == IN_ZERO) || (st == IN_DIGITS) || (st == IN_MANTISSA_DIGITS) ||
  (st == IN_EXP_DIGITS) || (st == IN_KEYWORD) || (st == IN_WHITESPACE) ||
  (st == IN_INTERP)

/-- The tag each `TERMINAL` macro use supplies for its row. -/
def rowTag (st : Nat) : Nat :=
  if st = IN_ZERO ∨ st = IN_DIGITS then JSON_INTEGER
  else if st = IN_MANTISSA_DIGITS ∨ st = IN_EXP_DIGITS then JSON_FLOAT
  else if st = IN_KEYWORD then JSON_KEYWORD
  else if st = IN_WHITESPACE then JSON_SKIP
  else if st = IN_INTERP then JSON_INTERP
  else IN_ERROR

/-- The byte values named by an explicit designated initializer of a
terminal-by-default row (the entries that override the `TERMINAL` fill). -/
def overriddenInRow (st ch : Nat) : Bool :=
  if st = IN_ZERO then decide (48 ≤ ch ∧ ch ≤ 57) || decide (ch = 46)
  else if st = IN_DIGITS then
    decide (48 ≤ ch ∧ ch ≤ 57) || decide (ch = 101) || decide (ch = 69) ||
      decide (ch = 46)
  else if st = IN_MANTISSA_DIGITS then
    decide (48 ≤ ch ∧ ch ≤ 57) || decide (ch = 101) || decide (ch = 69)
  else if st = IN_EXP_DIGITS then decide (48 ≤ ch ∧ ch ≤ 57)
  else if st = IN_KEYWORD then decide (97 ≤ ch ∧ ch ≤ 122)
  else if st = IN_WHITESPACE then decide (ch = 32 ∨ ch = 9 ∨ ch = 13 ∨ ch = 10)
  else if st = IN_INTERP then
    decide (65 ≤ ch ∧ ch ≤ 90) || decide (97 ≤ ch ∧ ch ≤ 122) ||
      decide (48 ≤ ch ∧ ch ≤ 57)
  else false

/-- The lexer with its token buffer cleared and its state set to `s`
(the post-token reset, with `s` the start state). -/
def resetTo (l : JSONLexer) (s : Nat) : JSONLexer :=
  { l with token := [], state := s }

/-- The token-buffer size invariant the `MAX_TOKEN_SIZE` check maintains. -/
def tokenLenInv (l : JSONLexer) : Prop :=
  l.token.length ≤ MAX_TOKEN_SIZE

/-- A lexer sitting in its start state has nothing buffered.  This holds
after `json_lexer_init` and is preserved by every feed and flush (proved
below), so it holds of every reachable lexer. -/
def wfLexer (l : JSONLexer) : Prop :=
  l.state = l.start_state → l.token = []

/-- Feeding a buffer one byte per `json_lexer_feed` call. -/
def feedOneAtATime : JSONLexer → List Nat → JSONLexer × List JSONToken
  | lexer, [] => (lexer, [])
  | lexer, ch :: rest =>
    let r := json_lexer_feed lexer [ch]
    let r2 := feedOneAtATime r.1 rest
    (r2.1, r.2 ++ r2.2)

/-- A call the lexer's user can make: a feed of some bytes, or a flush. -/
inductive LexOp where
  | feedBytes (bytes : List Nat) : LexOp
  | flushAll : LexOp
deriving DecidableEq, Repr

/-- Run a sequence of feed/flush calls, concatenating the callback
invocations. -/
def runOps : JSONLexer → List LexOp → JSONLexer × List JSONToken
  | lexer, [] => (lexer, [])
  | lexer, op :: rest =>
    let r := match op with
      | LexOp.feedBytes bs => json_lexer_feed lexer bs
      | LexOp.flushAll => json_lexer_flush lexer
    let r2 := runOps r.1 rest
    (r2.1, r.2 ++ r2.2)

theorem posUpd_state (l : JSONLexer) (ch : Nat) : (posUpd l ch).state = l.state := by
  unfold posUpd
  split <;> rfl

theorem posUpd_token (l : JSONLexer) (ch : Nat) : (posUpd l ch).token = l.token := by
  unfold posUpd
  split <;> rfl

theorem posUpd_start_state (l : JSONLexer) (ch : Nat) :
    (posUpd l ch).start_state = l.start_state := by
  unfold posUpd
  split <;> rfl

theorem posUpd_reset (l : JSONLexer) (ch s : Nat) :
    posUpd { l with state := s, token := [] } ch =
      { posUpd l ch with state := s, token := [] } := by
  unfold posUpd
  by_cases h : ch = 10 <;> simp [h]

theorem isTerminalRow_lt (st : Nat) (h : isTerminalRow st = true) : st < 18 := by
  unfold isTerminalRow at h
  simp only [Bool.or_eq_true, beq_iff_eq] at h
  unfold IN_ZERO IN_DIGITS IN_MANTISSA_DIGITS IN_EXP_DIGITS IN_KEYWORD
    IN_WHITESPACE IN_INTERP at h
  omega

theorem terminalRow_ball :
    ∀ st : Fin 18, isTerminalRow st.val = true →
      (∀ ch : Fin 128, overriddenInRow st.val ch.val = false →
        lexTable st.val ch.val = rowTag st.val) ∧
      terminalNeededLookahead st.val (rowTag st.val) = true ∧
      rowTag st.val ≠ IN_ERROR := by
  decide

theorem terminalRow_lexTable (st ch : Nat) (hst : isTerminalRow st = true)
    (hch : ch < 128) (hov : overriddenInRow st ch = false) :
    lexTable st ch = rowTag st :=
  (terminalRow_ball ⟨st, isTerminalRow_lt st hst⟩ hst).1 ⟨ch, hch⟩ hov

theorem terminalRow_tnl (st : Nat) (hst : isTerminalRow st = true) :
    terminalNeededLookahead st (rowTag st) = true :=
  (terminalRow_ball ⟨st, isTerminalRow_lt st hst⟩ hst).2.1

theorem tnl_start_false (st t : Nat)
    (h : st = IN_START ∨ st = IN_START_INTERP) :
    terminalNeededLookahead st t = false := by
  have h0 : lexTable st 0 = 0 := by
    rcases h with h | h <;> subst h <;> decide
  unfold terminalNeededLookahead
  rw [h0]
  cases t with
  | zero => rfl
  | succ n => simp

/-- Rows beyond the 18 declared states exist in neither the enum nor the
table; the model maps them to the error state. -/
theorem lexTable_ge18 (st ch : Nat) (h : 18 ≤ st) : lexTable st ch = IN_ERROR := by
  have h1 : ¬(st = IN_DQ_STRING_ESCAPE) := by unfold IN_DQ_STRING_ESCAPE; omega
  have h2 : ¬(st = IN_DQ_STRING) := by unfold IN_DQ_STRING; omega
  have h3 : ¬(st = IN_SQ_STRING_ESCAPE) := by unfold IN_SQ_STRING_ESCAPE; omega
  have h4 : ¬(st = IN_SQ_STRING) := by unfold IN_SQ_STRING; omega
  have h5 : ¬(st = IN_ZERO) := by unfold IN_ZERO; omega
  have h6 : ¬(st = IN_EXP_DIGITS) := by unfold IN_EXP_DIGITS; omega
  have h7 : ¬(st = IN_EXP_SIGN) := by unfold IN_EXP_SIGN; omega
  have h8 : ¬(st = IN_EXP_E) := by unfold IN_EXP_E; omega
  have h9 : ¬(st = IN_MANTISSA_DIGITS) := by unfold IN_MANTISSA_DIGITS; omega
  have h10 : ¬(st = IN_MANTISSA) := by unfold IN_MANTISSA; omega
  have h11 : ¬(st = IN_DIGITS) := by unfold IN_DIGITS; omega
  have h12 : ¬(st = IN_SIGN) := by unfold IN_SIGN; omega
  have h13 : ¬(st = IN_KEYWORD) := by unfold IN_KEYWORD; omega
  have h14 : ¬(st = IN_WHITESPACE) := by unfold IN_WHITESPACE; omega
  have h15 : ¬(st = IN_INTERP) := by unfold IN_INTERP; omega
  have h16 : ¬(st = IN_START ∨ st = IN_START_INTERP) := by
    unfold IN_START IN_START_INTERP; omega
  unfold lexTable
  rw [if_neg h1, if_neg h2, if_neg h3, if_neg h4, if_neg h5, if_neg h6,
    if_neg h7, if_neg h8, if_neg h9, if_neg h10, if_neg h11, if_neg h12,
    if_neg h13, if_neg h14, if_neg h15, if_neg h16]

theorem lexTable_range_fin :
    ∀ st : Fin 18, ∀ c : Fin 256,
      lexTable st.val c.val ≤ 17 ∨
      (lexTable st.val c.val = JSON_LCURLY ∨ lexTable st.val c.val = JSON_RCURLY ∨
       lexTable st.val c.val = JSON_LSQUARE ∨ lexTable st.val c.val = JSON_RSQUARE ∨
       lexTable st.val c.val = JSON_COLON ∨ lexTable st.val c.val = JSON_COMMA ∨
       lexTable st.val c.val = JSON_INTERP ∨ lexTable st.val c.val = JSON_INTEGER ∨
       lexTable st.val c.val = JSON_FLOAT ∨ lexTable st.val c.val = JSON_KEYWORD ∨
       lexTable st.val c.val = JSON_STRING) ∨
      lexTable st.val c.val = JSON_SKIP := by
  decide

/-- Every value stored in the transition table is either a lexer state
(below 18) or one of the tags the driver's switch dispatches on; the error
tag and the end-of-input tag never appear as table entries. -/
theorem lexTable_range (st c : Nat) (hc : c < 256) :
    lexTable st c ≤ 17 ∨
    (lexTable st c = JSON_LCURLY ∨ lexTable st c = JSON_RCURLY ∨
     lexTable st c = JSON_LSQUARE ∨ lexTable st c = JSON_RSQUARE ∨
     lexTable st c = JSON_COLON ∨ lexTable st c = JSON_COMMA ∨
     lexTable st c = JSON_INTERP ∨ lexTable st c = JSON_INTEGER ∨
     lexTable st c = JSON_FLOAT ∨ lexTable st c = JSON_KEYWORD ∨
     lexTable st c = JSON_STRING) ∨
    lexTable st c = JSON_SKIP := by
  by_cases hst : st < 18
  · exact lexTable_range_fin ⟨st, hst⟩ ⟨c, hc⟩
  · left
    rw [lexTable_ge18 st c (Nat.le_of_not_lt hst)]
    decide

theorem lexTable_byte0_fin :
    ∀ st : Fin 18,
      lexTable st.val 0 = IN_ERROR ∨ lexTable st.val 0 = JSON_INTEGER ∨
      lexTable st.val 0 = JSON_FLOAT ∨ lexTable st.val 0 = JSON_KEYWORD ∨
      lexTable st.val 0 = JSON_SKIP ∨ lexTable st.val 0 = JSON_INTERP := by
  decide

/-- On the NUL byte the table yields either the error state or a
terminal-by-default tag: no row maps byte 0 to another lexer state. -/
theorem lexTable_byte0 (st : Nat) :
    lexTable st 0 = IN_ERROR ∨ lexTable st 0 = JSON_INTEGER ∨
    lexTable st 0 = JSON_FLOAT ∨ lexTable st 0 = JSON_KEYWORD ∨
    lexTable st 0 = JSON_SKIP ∨ lexTable st 0 = JSON_INTERP := by
  by_cases hst : st < 18
  · exact lexTable_byte0_fin ⟨st, hst⟩
  · left
    exact lexTable_ge18 st 0 (Nat.le_of_not_lt hst)

theorem feedIter_start_state (l : JSONLexer) (ch : Nat) (fl : Bool) :
    (feedIter l ch fl).lexer.start_state = l.start_state := by
  simp only [feedIter]
  split_ifs <;> rfl

theorem feedIter_x (l : JSONLexer) (ch : Nat) (fl : Bool) :
    (feedIter l ch fl).lexer.x = l.x ∧ (feedIter l ch fl).lexer.y = l.y := by
  simp only [feedIter]
  split_ifs <;> exact ⟨rfl, rfl⟩

theorem feedIter_start_again (l : JSONLexer) (ch : Nat) (fl : Bool)
    (h : l.state = IN_START ∨ l.state = IN_START_INTERP) :
    (feedIter l ch fl).again = false := by
  have hc : terminalNeededLookahead l.state (lexTable l.state (ch % 256)) = false :=
    tnl_start_false _ _ h
  simp only [feedIter, hc]
  split_ifs <;> rfl

theorem feedLoop_zero (l : JSONLexer) (ch : Nat) (fl : Bool) :
    feedLoop 0 l ch fl = { lexer := l, emitted := [], abort := false } := rfl

theorem feedLoop_succ_eq (m : Nat) (l : JSONLexer) (ch : Nat) (fl : Bool) :
    feedLoop (m + 1) l ch fl =
      if (feedIter l ch fl).again then
        { lexer := (feedLoop m (feedIter l ch fl).lexer ch fl).lexer,
          emitted := (feedIter l ch fl).emitted ++
            (feedLoop m (feedIter l ch fl).lexer ch fl).emitted,
          abort := (feedLoop m (feedIter l ch fl).lexer ch fl).abort }
      else
        { lexer := (feedIter l ch fl).lexer, emitted := (feedIter l ch fl).emitted,
          abort := (feedIter l ch fl).abort } := rfl

theorem feedLoop_succ_not_again (m : Nat) (l : JSONLexer) (ch : Nat) (fl : Bool)
    (ha : (feedIter l ch fl).again = false) :
    feedLoop (m + 1) l ch fl =
      { lexer := (feedIter l ch fl).lexer, emitted := (feedIter l ch fl).emitted,
        abort := (feedIter l ch fl).abort } := by
  rw [feedLoop_succ_eq, ha]
  simp

theorem feedLoop_start_fuel (n : Nat) (l : JSONLexer) (ch : Nat) (fl : Bool)
    (h : l.state = IN_START ∨ l.state = IN_START_INTERP) :
    feedLoop (n + 1) l ch fl = feedLoop 1 l ch fl := by
  have ha := feedIter_start_again l ch fl h
  rw [feedLoop_succ_not_again n l ch fl ha,
    show (1 : Nat) = 0 + 1 from rfl, feedLoop_succ_not_again 0 l ch fl ha]

theorem tnl_error (st : Nat) : terminalNeededLookahead st IN_ERROR = false := rfl

theorem consumedToken_le (l : JSONLexer) (ch : Nat) (fl cc : Bool) :
    (consumedToken l ch fl cc).length ≤ l.token.length + 1 := by
  unfold consumedToken
  split <;> simp

theorem consumedToken_false (l : JSONLexer) (ch : Nat) (fl : Bool) :
    consumedToken l ch fl false = l.token := by
  unfold consumedToken
  simp

theorem feedIter_state_classify (l : JSONLexer) (ch : Nat) (fl : Bool) :
    (feedIter l ch fl).lexer.state = l.start_state ∨
    (feedIter l ch fl).lexer.state ≤ 17 := by
  simp only [feedIter]
  split_ifs with h1 h2 h3
  · left; rfl
  · left; rfl
  · left; rfl
  · rcases lexTable_range l.state (ch % 256) (Nat.mod_lt _ (by norm_num)) with h | h | h
    · right; exact h
    · exact absurd h h1
    · exact absurd h h2

theorem feedIter_no_skip (l : JSONLexer) (ch : Nat) (fl : Bool) :
    ∀ t ∈ (feedIter l ch fl).emitted, t.ttype ≠ JSON_SKIP := by
  simp only [feedIter]
  split_ifs with h1 h2 h3
  · intro t ht
    simp only [List.mem_singleton] at ht
    subst ht
    show lexTable l.state (ch % 256) ≠ JSON_SKIP
    rcases h1 with h | h | h | h | h | h | h | h | h | h | h <;> rw [h] <;> decide
  · intro t ht
    simp at ht
  · intro t ht
    simp only [List.mem_singleton] at ht
    subst ht
    show JSON_ERROR ≠ JSON_SKIP
    decide
  · intro t ht
    simp at ht

theorem feedIter_token_le (l : JSONLexer) (ch : Nat) (fl : Bool) :
    (feedIter l ch fl).lexer.token.length ≤ l.token.length + 1 := by
  simp only [feedIter]
  split_ifs with h1 h2 h3
  · simp
  · simp
  · simp
  · exact consumedToken_le l ch fl _

theorem feedIter_abort_token (l : JSONLexer) (ch : Nat) (fl : Bool) :
    (feedIter l ch fl).abort = true → (feedIter l ch fl).lexer.token = [] := by
  simp only [feedIter]
  split_ifs with h1 h2 h3
  · intro h
    simp at h
  · intro h
    simp at h
  · intro _
    rfl
  · intro h
    simp at h

theorem feedIter_again_token (l : JSONLexer) (ch : Nat) (fl : Bool)
    (h : (feedIter l ch fl).again = true) :
    (feedIter l ch fl).lexer.token.length ≤ l.token.length := by
  revert h
  simp only [feedIter]
  split_ifs with h1 h2 h3
  · intro _
    simp
  · intro _
    simp
  · intro h
    simp at h
  · intro h
    simp only [Bool.not_not, Bool.and_eq_true] at h
    show (consumedToken l ch fl (! terminalNeededLookahead l.state
      (lexTable l.state (ch % 256)))).length ≤ l.token.length
    rw [h.1]
    rw [show (! true) = false from rfl, consumedToken_false]

theorem feedIter_again_state (l : JSONLexer) (ch : Nat) (fl : Bool)
    (h : (feedIter l ch fl).again = true) :
    (feedIter l ch fl).lexer.state = l.start_state := by
  revert h
  simp only [feedIter]
  split_ifs with h1 h2 h3
  · intro _
    rfl
  · intro _
    rfl
  · intro h
    simp at h
  · intro h
    exfalso
    simp only [Bool.not_not, Bool.and_eq_true] at h
    have htnl := h.1
    unfold terminalNeededLookahead at htnl
    simp only [Bool.and_eq_true, bne_iff_ne, beq_iff_eq] at htnl
    obtain ⟨hne, heq⟩ := htnl
    rcases lexTable_byte0 l.state with h0 | h0 | h0 | h0 | h0 | h0 <;>
      rw [h0] at heq
    · exact hne heq.symm
    · exact h1 (Or.inr (Or.inr (Or.inr (Or.inr (Or.inr (Or.inr
        (Or.inr (Or.inl heq.symm))))))))
    · exact h1 (Or.inr (Or.inr (Or.inr (Or.inr (Or.inr (Or.inr
        (Or.inr (Or.inr (Or.inl heq.symm)))))))))
    · exact h1 (Or.inr (Or.inr (Or.inr (Or.inr (Or.inr (Or.inr
        (Or.inr (Or.inr (Or.inr (Or.inl heq.symm))))))))))
    · exact h2 heq.symm
    · exact h1 (Or.inr (Or.inr (Or.inr (Or.inr (Or.inr (Or.inr
        (Or.inl heq.symm)))))))

theorem feedLoop_start_state_pres (n : Nat) (l : JSONLexer) (ch : Nat) (fl : Bool) :
    (feedLoop n l ch fl).lexer.start_state = l.start_state := by
  induction n generalizing l with
  | zero => rfl
  | succ m ih =>
    rw [feedLoop_succ_eq]
    by_cases h : (feedIter l ch fl).again = true
    · simp only [h, if_true]
      rw [ih, feedIter_start_state]
    · simp only [h, if_false, Bool.false_eq_true]
      exact feedIter_start_state l ch fl

theorem feedLoop_no_skip (n : Nat) (l : JSONLexer) (ch : Nat) (fl : Bool) :
    ∀ t ∈ (feedLoop n l ch fl).emitted, t.ttype ≠ JSON_SKIP := by
  induction n generalizing l with
  | zero =>
    intro t ht
    simp [feedLoop_zero] at ht
  | succ m ih =>
    intro t ht
    rw [feedLoop_succ_eq] at ht
    by_cases h : (feedIter l ch fl).again = true
    · simp only [h, if_true, List.mem_append] at ht
      rcases ht with ht | ht
      · exact feedIter_no_skip l ch fl t ht
      · exact ih _ t ht
    · simp only [h, if_false, Bool.false_eq_true] at ht
      exact feedIter_no_skip l ch fl t ht

theorem feedLoop_succ_state (n : Nat) (l : JSONLexer) (ch : Nat) (fl : Bool) :
    (feedLoop (n + 1) l ch fl).lexer.state = l.start_state ∨
    (feedLoop (n + 1) l ch fl).lexer.state ≤ 17 := by
  induction n generalizing l with
  | zero =>
    rw [feedLoop_succ_eq]
    by_cases h : (feedIter l ch fl).again = true
    · simp only [h, if_true, feedLoop_zero]
      exact feedIter_state_classify l ch fl
    · simp only [h, if_false, Bool.false_eq_true]
      exact feedIter_state_classify l ch fl
  | succ m ih =>
    rw [feedLoop_succ_eq]
    by_cases h : (feedIter l ch fl).again = true
    · simp only [h, if_true]
      rcases ih (feedIter l ch fl).lexer with h' | h'
      · left
        rw [h', feedIter_start_state]
      · right
        exact h'
    · simp only [h, if_false, Bool.false_eq_true]
      exact feedIter_state_classify l ch fl

theorem feedLoop_len (n : Nat) (l : JSONLexer) (ch : Nat) (fl : Bool) :
    (feedLoop n l ch fl).lexer.token.length ≤ l.token.length + 1 ∧
    ((feedLoop n l ch fl).abort = true → (feedLoop n l ch fl).lexer.token = []) := by
  induction n generalizing l with
  | zero =>
    refine ⟨Nat.le_succ _, ?_⟩
    rw [feedLoop_zero]
    intro h
    simp at h
  | succ m ih =>
    rw [feedLoop_succ_eq]
    by_cases h : (feedIter l ch fl).again = true
    · simp only [h, if_true]
      constructor
      · have h1 := (ih (feedIter l ch fl).lexer).1
        have h2 := feedIter_again_token l ch fl h
        omega
      · exact fun ha => (ih _).2 ha
    · simp only [h, if_false, Bool.false_eq_true]
      exact ⟨feedIter_token_le l ch fl, feedIter_abort_token l ch fl⟩

theorem json_lexer_feed_char_eq (lexer : JSONLexer) (ch : Nat) (fl : Bool) :
    json_lexer_feed_char lexer ch fl =
      if (feedLoop 2 (posUpd lexer ch) ch fl).abort then
        ((feedLoop 2 (posUpd lexer ch) ch fl).lexer,
         (feedLoop 2 (posUpd lexer ch) ch fl).emitted)
      else if MAX_TOKEN_SIZE <
          (feedLoop 2 (posUpd lexer ch) ch fl).lexer.token.length then
        ({ (feedLoop 2 (posUpd lexer ch) ch fl).lexer with
             token := [],
             state := (feedLoop 2 (posUpd lexer ch) ch fl).lexer.start_state },
         (feedLoop 2 (posUpd lexer ch) ch fl).emitted ++
           [⟨(feedLoop 2 (posUpd lexer ch) ch fl).lexer.state,
             (feedLoop 2 (posUpd lexer ch) ch fl).lexer.token,
             (feedLoop 2 (posUpd lexer ch) ch fl).lexer.x,
             (feedLoop 2 (posUpd lexer ch) ch fl).lexer.y⟩])
      else
        ((feedLoop 2 (posUpd lexer ch) ch fl).lexer,
         (feedLoop 2 (posUpd lexer ch) ch fl).emitted) := rfl

/-- C10: the do-while loop of `json_lexer_feed_char` needs at most two
iterations: with the start-state field set by `json_lexer_init`, running the
loop with any fuel of at least 2 gives the same result as with fuel 2,
because from either start row no transition is a lookahead terminal — the
start rows' byte-0 (default) entry is the error state, so the
`TERMINAL_NEEDED_LOOKAHEAD` test is always false there, and a first
iteration that did not consume the byte always resets the state to the
start state first. -/
theorem c10_loop_two_iterations (n : Nat) (lexer : JSONLexer) (ch : Nat)
    (fl : Bool) (hn : 2 ≤ n)
    (hstart : lexer.start_state = IN_START ∨
      lexer.start_state = IN_START_INTERP) :
    lexTable IN_START 0 = IN_ERROR ∧ lexTable IN_START_INTERP 0 = IN_ERROR ∧
    (∀ t, terminalNeededLookahead IN_START t = false ∧
      terminalNeededLookahead IN_START_INTERP t = false) ∧
    feedLoop n lexer ch fl = feedLoop 2 lexer ch fl := by
  refine ⟨by decide, by decide,
    fun t => ⟨tnl_start_false _ t (Or.inl rfl), tnl_start_false _ t (Or.inr rfl)⟩, ?_⟩
  obtain ⟨m, rfl⟩ : ∃ m, n = m + 1 + 1 := ⟨n - 2, by omega⟩
  rw [feedLoop_succ_eq (m + 1) lexer ch fl,
    show (2 : Nat) = 1 + 1 from rfl, feedLoop_succ_eq 1 lexer ch fl]
  by_cases h : (feedIter lexer ch fl).again = true
  · have hS : (feedIter lexer ch fl).lexer.state = IN_START ∨
        (feedIter lexer ch fl).lexer.state = IN_START_INTERP := by
      rw [feedIter_again_state lexer ch fl h]
      exact hstart
    rw [feedLoop_start_fuel m _ ch fl hS, feedLoop_start_fuel 0 _ ch fl hS]
  · simp only [h, if_false, Bool.false_eq_true]

/-- C10 witness: fuel 3 agrees with fuel 2 on a freshly initialized lexer
fed the byte `0`. -/
theorem c10_loop_two_iterations_witness :
    lexTable IN_START 0 = IN_ERROR ∧ lexTable IN_START_INTERP 0 = IN_ERROR ∧
    (∀ t, terminalNeededLookahead IN_START t = false ∧
      terminalNeededLookahead IN_START_INTERP t = false) ∧
    feedLoop 3 (json_lexer_init false) 48 false =
      feedLoop 2 (json_lexer_init false) 48 false :=
  c10_loop_two_iterations 3 (json_lexer_init false) 48 false (by decide)
    (Or.inl rfl)

/-- C3: whenever the table sends the current state and byte to `IN_ERROR`,
the feed step totals to exactly one `JSON_ERROR` token through the ordinary
consumer callback — carrying the accumulated buffer (with the offending
byte appended, since an error transition consumes it) and the current
position — and the lexer comes out with an empty token buffer and
`state = start_state`, ready to lex subsequent bytes as a fresh token. -/
theorem c3_error_token_reset (lexer : JSONLexer) (ch : Nat) (hch : ch < 256)
    (h : lexTable lexer.state ch = IN_ERROR) :
    json_lexer_feed_char lexer ch false =
      ({ posUpd lexer ch with state := lexer.start_state, token := [] },
       [⟨JSON_ERROR, lexer.token ++ [ch],
         (posUpd lexer ch).x, (posUpd lexer ch).y⟩]) := by
  have hmod : ch % 256 = ch := Nat.mod_eq_of_lt hch
  have hiter : feedIter (posUpd lexer ch) ch false =
      { lexer := { posUpd lexer ch with token := [], state := lexer.start_state },
        emitted := [⟨JSON_ERROR, lexer.token ++ [ch],
          (posUpd lexer ch).x, (posUpd lexer ch).y⟩],
        abort := true, again := false } := by
    simp only [feedIter, posUpd_state, posUpd_token, posUpd_start_state, hmod,
      h, tnl_error]
    rw [if_neg (by decide), if_neg (by decide)]
    simp [consumedToken, posUpd_token]
  have ha : (feedIter (posUpd lexer ch) ch false).again = false := by
    rw [hiter]
  have hl : feedLoop 2 (posUpd lexer ch) ch false =
      { lexer := { posUpd lexer ch with token := [], state := lexer.start_state },
        emitted := [⟨JSON_ERROR, lexer.token ++ [ch],
          (posUpd lexer ch).x, (posUpd lexer ch).y⟩],
        abort := true } := by
    rw [show (2 : Nat) = 1 + 1 from rfl,
      feedLoop_succ_not_again 1 (posUpd lexer ch) ch false ha, hiter]
  rw [json_lexer_feed_char_eq, hl]
  simp

/-- C3 witness: the interpolation byte `%` from the plain start state. -/
theorem c3_error_token_reset_witness :
    json_lexer_feed_char (json_lexer_init false) 37 false =
      ({ posUpd (json_lexer_init false) 37 with
          state := (json_lexer_init false).start_state, token := [] },
       [⟨JSON_ERROR, (json_lexer_init false).token ++ [37],
         (posUpd (json_lexer_init false) 37).x,
         (posUpd (json_lexer_init false) 37).y⟩]) :=
  c3_error_token_reset (json_lexer_init false) 37 (by decide) (by decide)

theorem json_lexer_feed_append (lexer : JSONLexer) (xs ys : List Nat) :
    json_lexer_feed lexer (xs ++ ys) =
      ((json_lexer_feed (json_lexer_feed lexer xs).1 ys).1,
       (json_lexer_feed lexer xs).2 ++
         (json_lexer_feed (json_lexer_feed lexer xs).1 ys).2) := by
  induction xs generalizing lexer with
  | nil => simp [json_lexer_feed]
  | cons c rest ih =>
    simp only [List.cons_append, json_lexer_feed, List.append_eq]
    rw [ih]
    simp [List.append_assoc]

/-- C4: feeding any byte sequence one byte per `json_lexer_feed` call
produces exactly the token sequence (and final lexer) of feeding it in a
single call, and a feed call splits over concatenation — so any chunking of
the input yields an identical emitted-token sequence. -/
theorem c4_chunk_invariance (lexer : JSONLexer) (bs xs ys : List Nat) :
    feedOneAtATime lexer bs = json_lexer_feed lexer bs ∧
    json_lexer_feed lexer (xs ++ ys) =
      ((json_lexer_feed (json_lexer_feed lexer xs).1 ys).1,
       (json_lexer_feed lexer xs).2 ++
         (json_lexer_feed (json_lexer_feed lexer xs).1 ys).2) := by
  refine ⟨?_, json_lexer_feed_append lexer xs ys⟩
  induction bs generalizing lexer with
  | nil => rfl
  | cons c rest ih =>
    simp only [feedOneAtATime, json_lexer_feed]
    rw [ih]
    simp

/-- C1: on the two-byte input `0` `,` — in one feed call or chunked as two —
the lexer emits exactly an integer token with text `0` and then a comma
token; the comma triggered a lookahead-terminal transition out of `IN_ZERO`,
so it is absent from the integer token's text and was re-processed from the
start state (becoming the comma token's own text). -/
theorem c1_zero_comma_lookahead :
    json_lexer_feed (json_lexer_init false) [48, 44] =
      ({ start_state := IN_START, state := IN_START, token := [], x := 2, y := 0 },
       [⟨JSON_INTEGER, [48], 2, 0⟩, ⟨JSON_COMMA, [44], 2, 0⟩]) ∧
    (json_lexer_feed (json_lexer_init false) [48]).2 ++
        (json_lexer_feed (json_lexer_feed (json_lexer_init false) [48]).1 [44]).2 =
      [⟨JSON_INTEGER, [48], 2, 0⟩, ⟨JSON_COMMA, [44], 2, 0⟩] ∧
    (json_lexer_feed (json_lexer_feed (json_lexer_init false) [48]).1 [44]).1 =
      (json_lexer_feed (json_lexer_init false) [48, 44]).1 ∧
    terminalNeededLookahead IN_ZERO (lexTable IN_ZERO 44) = true := by
  decide

/-- C2 counterexample: `IN_ZERO` is a terminal-by-default row with tag
`JSON_INTEGER`, byte `0x80` is not explicitly overridden in it, yet feeding
`0` then `0x80` emits a `JSON_ERROR` token (with the byte consumed into the
buffer), not an integer token: the `TERMINAL` macro only fills bytes
`0x00`-`0x7F`, and `0x80`-`0xFF` default to `IN_ERROR`. -/
theorem c2_byte_0x80_not_terminal :
    isTerminalRow IN_ZERO = true ∧
    overriddenInRow IN_ZERO 128 = false ∧
    rowTag IN_ZERO = JSON_INTEGER ∧
    lexTable IN_ZERO 128 = IN_ERROR ∧
    (json_lexer_feed (json_lexer_init false) [48, 128]).2 =
      [⟨JSON_ERROR, [48, 128], 2, 0⟩] := by
  decide

/-- C7: from `IN_ZERO`, a `.` enters `IN_MANTISSA` (no token yet); every
following digit `0`-`9` is an explicit `IN_ERROR` entry, so `0` followed by
any digit emits an error token, not an integer (in particular `01`); and
every other ASCII byte is a lookahead-terminal completing the lone `0` as
an integer token. -/
theorem c7_zero_state (b : Nat) (hb : b < 128) (hd : ¬(48 ≤ b ∧ b ≤ 57))
    (hdot : b ≠ 46) :
    lexTable IN_ZERO 46 = IN_MANTISSA ∧
    (json_lexer_feed (json_lexer_init false) [48, 46]).1.state = IN_MANTISSA ∧
    (json_lexer_feed (json_lexer_init false) [48, 46]).2 = [] ∧
    (json_lexer_feed (json_lexer_init false) [48, 49]).2 =
      [⟨JSON_ERROR, [48, 49], 2, 0⟩] ∧
    (∀ d : Nat, 48 ≤ d → d ≤ 57 →
      lexTable IN_ZERO d = IN_ERROR ∧
      (json_lexer_feed (json_lexer_init false) [48, d]).2 =
        [⟨JSON_ERROR, [48, d], 2, 0⟩]) ∧
    lexTable IN_ZERO b = JSON_INTEGER ∧
    terminalNeededLookahead IN_ZERO (lexTable IN_ZERO b) = true ∧
    ((json_lexer_feed (json_lexer_init false) [48, b]).2.map
        fun t => (t.ttype, t.text)).head? = some (JSON_INTEGER, [48]) := by
  have H : ∀ b' : Fin 128, ¬(48 ≤ b'.val ∧ b'.val ≤ 57) → b'.val ≠ 46 →
      lexTable IN_ZERO b'.val = JSON_INTEGER ∧
      terminalNeededLookahead IN_ZERO (lexTable IN_ZERO b'.val) = true ∧
      ((json_lexer_feed (json_lexer_init false) [48, b'.val]).2.map
          fun t => (t.ttype, t.text)).head? = some (JSON_INTEGER, [48]) := by
    decide
  have HD : ∀ d : Fin 58, 48 ≤ d.val →
      lexTable IN_ZERO d.val = IN_ERROR ∧
      (json_lexer_feed (json_lexer_init false) [48, d.val]).2 =
        [⟨JSON_ERROR, [48, d.val], 2, 0⟩] := by
    decide
  exact ⟨by decide, by decide, by decide, by decide,
    fun d hd1 hd2 => HD ⟨d, by omega⟩ hd1,
    (H ⟨b, hb⟩ hd hdot).1, (H ⟨b, hb⟩ hd hdot).2.1, (H ⟨b, hb⟩ hd hdot).2.2⟩

/-- C7 witness at `b = 44` (the comma), with the digit conjunct
instantiated at `d = 48` (the digit `0`, i.e. the input `00`). -/
theorem c7_zero_state_witness :
    lexTable IN_ZERO 46 = IN_MANTISSA ∧
    (json_lexer_feed (json_lexer_init false) [48, 46]).1.state = IN_MANTISSA ∧
    (json_lexer_feed (json_lexer_init false) [48, 46]).2 = [] ∧
    (json_lexer_feed (json_lexer_init false) [48, 49]).2 =
      [⟨JSON_ERROR, [48, 49], 2, 0⟩] ∧
    (lexTable IN_ZERO 48 = IN_ERROR ∧
      (json_lexer_feed (json_lexer_init false) [48, 48]).2 =
        [⟨JSON_ERROR, [48, 48], 2, 0⟩]) ∧
    lexTable IN_ZERO 44 = JSON_INTEGER ∧
    terminalNeededLookahead IN_ZERO (lexTable IN_ZERO 44) = true ∧
    ((json_lexer_feed (json_lexer_init false) [48, 44]).2.map
        fun t => (t.ttype, t.text)).head? = some (JSON_INTEGER, [48]) := by
  have h := c7_zero_state 44 (by decide) (by decide) (by decide)
  exact ⟨h.1, h.2.1, h.2.2.1, h.2.2.2.1,
    h.2.2.2.2.1 48 (by decide) (by decide),
    h.2.2.2.2.2.1, h.2.2.2.2.2.2.1, h.2.2.2.2.2.2.2⟩

/-- C8: inside either escape state, every printable byte `0x20`-`0xFD`
(including the opposite quote and the backslash itself) returns to the
corresponding base string state with no validation; consequently the input
`"a\"b"` lexes as exactly one string token carrying the escape bytes
verbatim, and `'a"b'` lexes as exactly one string token. -/
theorem c8_escape_states (b : Nat) (h1 : 0x20 ≤ b) (h2 : b ≤ 0xFD) :
    lexTable IN_DQ_STRING_ESCAPE b = IN_DQ_STRING ∧
    lexTable IN_SQ_STRING_ESCAPE b = IN_SQ_STRING ∧
    (json_lexer_feed (json_lexer_init false) [34, 97, 92, 34, 98, 34]).2 =
      [⟨JSON_STRING, [34, 97, 92, 34, 98, 34], 6, 0⟩] ∧
    (json_lexer_feed (json_lexer_init false) [39, 97, 34, 98, 39]).2 =
      [⟨JSON_STRING, [39, 97, 34, 98, 39], 5, 0⟩] := by
  refine ⟨?_, ?_, by decide, by decide⟩
  · show lexTable IN_DQ_STRING_ESCAPE b = IN_DQ_STRING
    unfold lexTable
    rw [if_pos rfl]
    exact if_pos ⟨h1, h2⟩
  · show lexTable IN_SQ_STRING_ESCAPE b = IN_SQ_STRING
    unfold lexTable
    rw [if_neg (by decide), if_neg (by decide), if_pos rfl]
    exact if_pos ⟨h1, h2⟩

/-- C8 witness at `b = 92` (the backslash itself). -/
theorem c8_escape_states_witness :
    lexTable IN_DQ_STRING_ESCAPE 92 = IN_DQ_STRING ∧
    lexTable IN_SQ_STRING_ESCAPE 92 = IN_SQ_STRING ∧
    (json_lexer_feed (json_lexer_init false) [34, 97, 92, 34, 98, 34]).2 =
      [⟨JSON_STRING, [34, 97, 92, 34, 98, 34], 6, 0⟩] ∧
    (json_lexer_feed (json_lexer_init false) [39, 97, 34, 98, 39]).2 =
      [⟨JSON_STRING, [39, 97, 34, 98, 39], 5, 0⟩] :=
  c8_escape_states 92 (by decide) (by decide)

theorem isTerminalRow_cases (st : Nat) (h : isTerminalRow st = true) :
    st = IN_ZERO ∨ st = IN_DIGITS ∨ st = IN_MANTISSA_DIGITS ∨
    st = IN_EXP_DIGITS ∨ st = IN_KEYWORD ∨ st = IN_WHITESPACE ∨
    st = IN_INTERP := by
  unfold isTerminalRow at h
  simp only [Bool.or_eq_true, beq_iff_eq] at h
  tauto

/-- One loop iteration from a terminal-by-default row on a non-overridden
ASCII byte: the transition is a lookahead terminal, so the byte is not
appended, the buffer is completed under the row's tag (emitted unless the
tag is the skip tag), the state resets to the start state, and the loop is
asked to run again on the same byte. -/
theorem terminalRow_iter (l : JSONLexer) (ch : Nat)
    (hst : isTerminalRow l.state = true) (hch : ch < 128)
    (hov : overriddenInRow l.state ch = false) :
    feedIter l ch false =
      if l.state = IN_WHITESPACE then
        { lexer := { l with token := [], state := l.start_state },
          emitted := [], abort := false, again := true }
      else
        { lexer := { l with token := [], state := l.start_state },
          emitted := [⟨rowTag l.state, l.token, l.x, l.y⟩],
          abort := false, again := true } := by
  have hmod : ch % 256 = ch := Nat.mod_eq_of_lt (by omega)
  have htab : lexTable l.state ch = rowTag l.state :=
    terminalRow_lexTable _ _ hst hch hov
  have htnl : terminalNeededLookahead l.state (rowTag l.state) = true :=
    terminalRow_tnl _ hst
  simp only [feedIter, hmod, htab, htnl, Bool.not_true, Bool.not_false,
    Bool.and_self, consumedToken_false]
  by_cases hws : l.state = IN_WHITESPACE
  · have hrt : rowTag l.state = JSON_SKIP := by rw [hws]; decide
    rw [if_pos hws, hrt, if_neg (by decide), if_pos rfl]
  · have hemit : rowTag l.state = JSON_LCURLY ∨ rowTag l.state = JSON_RCURLY ∨
        rowTag l.state = JSON_LSQUARE ∨ rowTag l.state = JSON_RSQUARE ∨
        rowTag l.state = JSON_COLON ∨ rowTag l.state = JSON_COMMA ∨
        rowTag l.state = JSON_INTERP ∨ rowTag l.state = JSON_INTEGER ∨
        rowTag l.state = JSON_FLOAT ∨ rowTag l.state = JSON_KEYWORD ∨
        rowTag l.state = JSON_STRING := by
      rcases isTerminalRow_cases l.state hst with h | h | h | h | h | h | h <;>
        rw [h]
      · decide
      · decide
      · decide
      · decide
      · decide
      · exact absurd h hws
      · decide
    rw [if_neg hws, if_pos hemit]

/-- When the first loop iteration is a lookahead terminal (buffer completed
as `emitted`, state reset, byte not consumed), the whole feed step equals
the feed step of the reset lexer on the same byte, with `emitted` in front:
the triggering byte is re-processed against the start state. -/
theorem feed_char_reprocess (l : JSONLexer) (ch : Nat)
    (emitted : List JSONToken)
    (hstart : l.start_state = IN_START ∨ l.start_state = IN_START_INTERP)
    (hiter : feedIter (posUpd l ch) ch false =
      { lexer := { start_state := l.start_state, state := l.start_state,
                   token := [], x := (posUpd l ch).x, y := (posUpd l ch).y },
        emitted := emitted, abort := false, again := true }) :
    json_lexer_feed_char l ch false =
      ((json_lexer_feed_char (resetTo l l.start_state) ch false).1,
       emitted ++ (json_lexer_feed_char (resetTo l l.start_state) ch false).2) := by
  have hE : resetTo (posUpd l ch) l.start_state =
      ({ start_state := l.start_state, state := l.start_state, token := [],
         x := (posUpd l ch).x, y := (posUpd l ch).y } : JSONLexer) := by
    unfold resetTo
    rw [posUpd_start_state]
  rw [← hE] at hiter
  have hRs : (resetTo (posUpd l ch) l.start_state).state = IN_START ∨
      (resetTo (posUpd l ch) l.start_state).state = IN_START_INTERP := hstart
  have hloop : feedLoop 2 (posUpd l ch) ch false =
      { lexer := (feedLoop 1 (resetTo (posUpd l ch) l.start_state) ch false).lexer,
        emitted := emitted ++
          (feedLoop 1 (resetTo (posUpd l ch) l.start_state) ch false).emitted,
        abort := (feedLoop 1 (resetTo (posUpd l ch) l.start_state) ch false).abort } := by
    rw [show (2 : Nat) = 1 + 1 from rfl,
      feedLoop_succ_eq 1 (posUpd l ch) ch false, hiter]
    simp
  have hpos : posUpd (resetTo l l.start_state) ch =
      resetTo (posUpd l ch) l.start_state := posUpd_reset l ch l.start_state
  have hRHS : feedLoop 2 (posUpd (resetTo l l.start_state) ch) ch false =
      feedLoop 1 (resetTo (posUpd l ch) l.start_state) ch false := by
    rw [hpos]
    exact feedLoop_start_fuel 1 _ ch false hRs
  rw [json_lexer_feed_char_eq l ch false,
    json_lexer_feed_char_eq (resetTo l l.start_state) ch false, hRHS, hloop]
  by_cases hab :
      (feedLoop 1 (resetTo (posUpd l ch) l.start_state) ch false).abort = true
  · simp [hab]
  · by_cases hsz : MAX_TOKEN_SIZE <
        (feedLoop 1 (resetTo (posUpd l ch) l.start_state) ch false).lexer.token.length
    · simp [hab, hsz, List.append_assoc]
    · simp [hab, hsz]

/-- C2 (amended): in every terminal-by-default row, for every byte
`0x00`-`0x7F` not explicitly overridden in that row (bytes `0x80`-`0xFF`
are outside the `TERMINAL` fill and go to the error state instead, see the
counterexample), the table yields the row's tag via a lookahead-terminal
transition: the accumulated buffer is completed as a token of the row's tag
(emitted to the consumer unless the tag is skip) without consuming the
byte, which is then re-processed from the start state. -/
theorem c2_terminal_default_lookahead (l : JSONLexer) (ch : Nat)
    (hstart : l.start_state = IN_START ∨ l.start_state = IN_START_INTERP)
    (hst : isTerminalRow l.state = true) (hch : ch < 128)
    (hov : overriddenInRow l.state ch = false) :
    lexTable l.state ch = rowTag l.state ∧
    terminalNeededLookahead l.state (rowTag l.state) = true ∧
    json_lexer_feed_char l ch false =
      ((json_lexer_feed_char (resetTo l l.start_state) ch false).1,
       (if l.state = IN_WHITESPACE then ([] : List JSONToken)
        else [⟨rowTag l.state, l.token, (posUpd l ch).x, (posUpd l ch).y⟩]) ++
         (json_lexer_feed_char (resetTo l l.start_state) ch false).2) := by
  refine ⟨terminalRow_lexTable _ _ hst hch hov, terminalRow_tnl _ hst, ?_⟩
  have hiter := terminalRow_iter (posUpd l ch) ch
    (by rw [posUpd_state]; exact hst) hch (by rw [posUpd_state]; exact hov)
  rw [posUpd_state, posUpd_token, posUpd_start_state] at hiter
  by_cases hws : l.state = IN_WHITESPACE
  · rw [if_pos hws] at hiter
    rw [if_pos hws]
    exact feed_char_reprocess l ch [] hstart hiter
  · rw [if_neg hws] at hiter
    rw [if_neg hws]
    exact feed_char_reprocess l ch
      [⟨rowTag l.state, l.token, (posUpd l ch).x, (posUpd l ch).y⟩] hstart hiter

/-- C2 amended-claim witness: state `IN_ZERO` with buffer `0`, byte `,`. -/
theorem c2_terminal_default_lookahead_witness :
    lexTable IN_ZERO 44 = rowTag IN_ZERO ∧
    terminalNeededLookahead IN_ZERO (rowTag IN_ZERO) = true ∧
    json_lexer_feed_char (⟨IN_START, IN_ZERO, [48], 1, 0⟩ : JSONLexer) 44 false =
      ((json_lexer_feed_char
          (resetTo (⟨IN_START, IN_ZERO, [48], 1, 0⟩ : JSONLexer) IN_START)
          44 false).1,
       (if IN_ZERO = IN_WHITESPACE then ([] : List JSONToken)
        else [⟨rowTag IN_ZERO, [48],
          (posUpd (⟨IN_START, IN_ZERO, [48], 1, 0⟩ : JSONLexer) 44).x,
          (posUpd (⟨IN_START, IN_ZERO, [48], 1, 0⟩ : JSONLexer) 44).y⟩]) ++
         (json_lexer_feed_char
            (resetTo (⟨IN_START, IN_ZERO, [48], 1, 0⟩ : JSONLexer) IN_START)
            44 false).2) :=
  c2_terminal_default_lookahead ⟨IN_START, IN_ZERO, [48], 1, 0⟩ 44
    (Or.inl rfl) (by decide) (by decide) (by decide)

theorem feed_char_start_pres (l : JSONLexer) (ch : Nat) (fl : Bool) :
    (json_lexer_feed_char l ch fl).1.start_state = l.start_state := by
  rw [json_lexer_feed_char_eq]
  have hpres : (feedLoop 2 (posUpd l ch) ch fl).lexer.start_state =
      l.start_state := by
    rw [feedLoop_start_state_pres, posUpd_start_state]
  split_ifs <;> simp [hpres]

theorem feed_char_no_skip (l : JSONLexer) (ch : Nat) (fl : Bool)
    (hstart : l.start_state = IN_START ∨ l.start_state = IN_START_INTERP) :
    ∀ t ∈ (json_lexer_feed_char l ch fl).2, t.ttype ≠ JSON_SKIP := by
  rw [json_lexer_feed_char_eq]
  have hloopskip := feedLoop_no_skip 2 (posUpd l ch) ch fl
  have hstate : (feedLoop 2 (posUpd l ch) ch fl).lexer.state = l.start_state ∨
      (feedLoop 2 (posUpd l ch) ch fl).lexer.state ≤ 17 := by
    have h2 := feedLoop_succ_state 1 (posUpd l ch) ch fl
    rw [posUpd_start_state] at h2
    exact h2
  split_ifs with h1 h2
  · exact hloopskip
  · intro t ht
    rcases List.mem_append.mp ht with ht | ht
    · exact hloopskip t ht
    · simp only [List.mem_singleton] at ht
      subst ht
      show (feedLoop 2 (posUpd l ch) ch fl).lexer.state ≠ JSON_SKIP
      rcases hstate with h | h
      · rcases hstart with hs | hs <;> rw [h, hs] <;> decide
      · unfold JSON_SKIP
        omega
  · exact hloopskip

theorem feed_start_pres (bs : List Nat) :
    ∀ l : JSONLexer, (json_lexer_feed l bs).1.start_state = l.start_state := by
  induction bs with
  | nil => exact fun l => rfl
  | cons c rest ih =>
    intro l
    simp only [json_lexer_feed]
    rw [ih, feed_char_start_pres]

theorem feed_no_skip (bs : List Nat) :
    ∀ l : JSONLexer,
      l.start_state = IN_START ∨ l.start_state = IN_START_INTERP →
      ∀ t ∈ (json_lexer_feed l bs).2, t.ttype ≠ JSON_SKIP := by
  induction bs with
  | nil =>
    intro l _ t ht
    simp [json_lexer_feed] at ht
  | cons c rest ih =>
    intro l hstart t ht
    simp only [json_lexer_feed, List.mem_append] at ht
    rcases ht with ht | ht
    · exact feed_char_no_skip l c false hstart t ht
    · exact ih (json_lexer_feed_char l c false).1
        (by rw [feed_char_start_pres]; exact hstart) t ht

theorem json_lexer_flush_eq (l : JSONLexer) :
    json_lexer_flush l =
      if l.state ≠ l.start_state then
        ((json_lexer_feed_char l 0 true).1,
         (json_lexer_feed_char l 0 true).2 ++
           [⟨JSON_END_OF_INPUT, (json_lexer_feed_char l 0 true).1.token,
             (json_lexer_feed_char l 0 true).1.x,
             (json_lexer_feed_char l 0 true).1.y⟩])
      else (l, [⟨JSON_END_OF_INPUT, l.token, l.x, l.y⟩]) := by
  by_cases h : l.state ≠ l.start_state <;> simp [json_lexer_flush, h]

theorem flush_start_pres (l : JSONLexer) :
    (json_lexer_flush l).1.start_state = l.start_state := by
  rw [json_lexer_flush_eq]
  split_ifs with h
  · exact feed_char_start_pres l 0 true
  · rfl

theorem flush_no_skip (l : JSONLexer)
    (hstart : l.start_state = IN_START ∨ l.start_state = IN_START_INTERP) :
    ∀ t ∈ (json_lexer_flush l).2, t.ttype ≠ JSON_SKIP := by
  rw [json_lexer_flush_eq]
  split_ifs with h
  · intro t ht
    rcases List.mem_append.mp ht with ht | ht
    · exact feed_char_no_skip l 0 true hstart t ht
    · simp only [List.mem_singleton] at ht
      subst ht
      show JSON_END_OF_INPUT ≠ JSON_SKIP
      decide
  · intro t ht
    simp only [List.mem_singleton] at ht
    subst ht
    show JSON_END_OF_INPUT ≠ JSON_SKIP
    decide

theorem runOps_no_skip (ops : List LexOp) :
    ∀ l : JSONLexer,
      l.start_state = IN_START ∨ l.start_state = IN_START_INTERP →
      ∀ t ∈ (runOps l ops).2, t.ttype ≠ JSON_SKIP := by
  induction ops with
  | nil =>
    intro l _ t ht
    simp [runOps] at ht
  | cons op rest ih =>
    intro l hstart t ht
    cases op with
    | feedBytes bs =>
      simp only [runOps, List.mem_append] at ht
      rcases ht with ht | ht
      · exact feed_no_skip bs l hstart t ht
      · exact ih (json_lexer_feed l bs).1
          (by rw [feed_start_pres]; exact hstart) t ht
    | flushAll =>
      simp only [runOps, List.mem_append] at ht
      rcases ht with ht | ht
      · exact flush_no_skip l hstart t ht
      · exact ih (json_lexer_flush l).1
          (by rw [flush_start_pres]; exact hstart) t ht

/-- C9: over any sequence of feed and flush calls, the consumer callback is
never invoked with the skip tag; and completing a whitespace run (a
non-whitespace ASCII byte arriving in state `IN_WHITESPACE`) behaves
exactly like feeding that byte to the lexer with the buffer cleared and the
state reset to the start state — no token is emitted for the run. -/
theorem c9_skip_never_forwarded (lexer : JSONLexer) (ops : List LexOp)
    (l2 : JSONLexer) (b : Nat)
    (hstart : lexer.start_state = IN_START ∨ lexer.start_state = IN_START_INTERP)
    (h2start : l2.start_state = IN_START ∨ l2.start_state = IN_START_INTERP)
    (h2 : l2.state = IN_WHITESPACE) (hb : b < 128)
    (hov : overriddenInRow IN_WHITESPACE b = false) :
    (∀ t ∈ (runOps lexer ops).2, t.ttype ≠ JSON_SKIP) ∧
    json_lexer_feed_char l2 b false =
      json_lexer_feed_char (resetTo l2 l2.start_state) b false := by
  refine ⟨runOps_no_skip ops lexer hstart, ?_⟩
  have hiter := terminalRow_iter (posUpd l2 b) b
    (by rw [posUpd_state, h2]; decide) hb
    (by rw [posUpd_state, h2]; exact hov)
  rw [posUpd_state, posUpd_token, posUpd_start_state, h2, if_pos rfl] at hiter
  have h := feed_char_reprocess l2 b [] h2start hiter
  rw [h]
  simp

/-- C9 witness: run `[feed " 1", flush]` from a fresh lexer (no skip token
among the four callback invocations), and the whitespace-completion
equation at state `IN_WHITESPACE` with buffer `" "` and byte `1`. -/
theorem c9_skip_never_forwarded_witness :
    json_lexer_feed_char (⟨IN_START, IN_WHITESPACE, [32], 1, 0⟩ : JSONLexer)
        49 false =
      json_lexer_feed_char
        (resetTo (⟨IN_START, IN_WHITESPACE, [32], 1, 0⟩ : JSONLexer) IN_START)
        49 false :=
  (c9_skip_never_forwarded (json_lexer_init false)
    [LexOp.feedBytes [32, 49], LexOp.flushAll]
    ⟨IN_START, IN_WHITESPACE, [32], 1, 0⟩ 49
    (Or.inl rfl) (Or.inl rfl) rfl (by decide) (by decide)).2

theorem feed_char_len_inv (l : JSONLexer) (ch : Nat) (fl : Bool) :
    tokenLenInv (json_lexer_feed_char l ch fl).1 := by
  unfold tokenLenInv
  rw [json_lexer_feed_char_eq]
  have hlen := feedLoop_len 2 (posUpd l ch) ch fl
  split_ifs with h1 h2
  · rw [hlen.2 h1]
    simp
  · simp
  · exact Nat.le_of_not_lt h2

theorem feed_len_inv (bs : List Nat) :
    ∀ l : JSONLexer, tokenLenInv l → tokenLenInv (json_lexer_feed l bs).1 := by
  induction bs with
  | nil => exact fun l h => h
  | cons c rest ih =>
    intro l _
    simp only [json_lexer_feed]
    exact ih _ (feed_char_len_inv l c false)

theorem flush_len_inv (l : JSONLexer) (h : tokenLenInv l) :
    tokenLenInv (json_lexer_flush l).1 := by
  rw [json_lexer_flush_eq]
  split_ifs with hs
  · exact feed_char_len_inv l 0 true
  · exact h

/-- C6: after any feed (of any byte list) or flush, the token buffer holds
at most `MAX_TOKEN_SIZE` = 64 MiB bytes; and whenever the loop leaves the
buffer above that bound (without having taken the error early-return), the
feed step force-emits the buffer as a token tagged with the current state
at the current position and resets to the start state with an empty
buffer. -/
theorem c6_token_size_bound (lexer : JSONLexer) (bs : List Nat)
    (h : tokenLenInv lexer) :
    tokenLenInv (json_lexer_feed lexer bs).1 ∧
    tokenLenInv (json_lexer_flush lexer).1 ∧
    (∀ (l2 : JSONLexer) (ch : Nat) (fl : Bool),
      (feedLoop 2 (posUpd l2 ch) ch fl).abort = false →
      MAX_TOKEN_SIZE < (feedLoop 2 (posUpd l2 ch) ch fl).lexer.token.length →
      json_lexer_feed_char l2 ch fl =
        (resetTo (feedLoop 2 (posUpd l2 ch) ch fl).lexer
           (feedLoop 2 (posUpd l2 ch) ch fl).lexer.start_state,
         (feedLoop 2 (posUpd l2 ch) ch fl).emitted ++
           [⟨(feedLoop 2 (posUpd l2 ch) ch fl).lexer.state,
             (feedLoop 2 (posUpd l2 ch) ch fl).lexer.token,
             (feedLoop 2 (posUpd l2 ch) ch fl).lexer.x,
             (feedLoop 2 (posUpd l2 ch) ch fl).lexer.y⟩])) := by
  refine ⟨feed_len_inv bs lexer h, flush_len_inv lexer h, ?_⟩
  intro l2 ch fl hab hsz
  rw [json_lexer_feed_char_eq, if_neg (by simp [hab]), if_pos hsz]
  rfl

/-- C6 witness: the invariant after feeding `0` to a fresh lexer. -/
theorem c6_token_size_bound_witness :
    tokenLenInv (json_lexer_feed (json_lexer_init false) [48]).1 :=
  (c6_token_size_bound (json_lexer_init false) [48] (Nat.zero_le _)).1

theorem feedIter_flush_not_again (l : JSONLexer) (ch : Nat) :
    (feedIter l ch true).again = false := by
  simp only [feedIter]
  split_ifs <;> simp

theorem feedIter_flush0_token (l : JSONLexer) :
    (feedIter l 0 true).lexer.token = [] := by
  simp only [feedIter, Nat.zero_mod]
  split_ifs with h1 h2 h3
  · rfl
  · rfl
  · rfl
  · exfalso
    rcases lexTable_byte0 l.state with h | h | h | h | h | h
    · exact h3 h
    · exact h1 (Or.inr (Or.inr (Or.inr (Or.inr (Or.inr (Or.inr
        (Or.inr (Or.inl h))))))))
    · exact h1 (Or.inr (Or.inr (Or.inr (Or.inr (Or.inr (Or.inr
        (Or.inr (Or.inr (Or.inl h)))))))))
    · exact h1 (Or.inr (Or.inr (Or.inr (Or.inr (Or.inr (Or.inr
        (Or.inr (Or.inr (Or.inr (Or.inl h))))))))))
    · exact h2 h
    · exact h1 (Or.inr (Or.inr (Or.inr (Or.inr (Or.inr (Or.inr
        (Or.inl h)))))))

theorem flush_feed_char_token (l : JSONLexer) :
    (json_lexer_feed_char l 0 true).1.token = [] := by
  have ha := feedIter_flush_not_again (posUpd l 0) 0
  have e := feedLoop_succ_not_again 1 (posUpd l 0) 0 true ha
  rw [json_lexer_feed_char_eq, show (2 : Nat) = 1 + 1 from rfl, e]
  have ht := feedIter_flush0_token (posUpd l 0)
  split_ifs <;> simp [ht]

theorem lexTable_not_start_fin :
    ∀ st : Fin 18, ∀ c : Fin 256,
      lexTable st.val c.val ≠ IN_START ∧
      lexTable st.val c.val ≠ IN_START_INTERP := by
  decide

/-- No table entry is a start state: the start rows are entry points only,
never reached as intermediate states. -/
theorem lexTable_not_start (st c : Nat) (hc : c < 256) :
    lexTable st c ≠ IN_START ∧ lexTable st c ≠ IN_START_INTERP := by
  by_cases hst : st < 18
  · exact lexTable_not_start_fin ⟨st, hst⟩ ⟨c, hc⟩
  · rw [lexTable_ge18 st c (Nat.le_of_not_lt hst)]
    exact ⟨by decide, by decide⟩

theorem feedIter_wf (l : JSONLexer) (ch : Nat) (fl : Bool)
    (h : (feedIter l ch fl).lexer.state = IN_START ∨
      (feedIter l ch fl).lexer.state = IN_START_INTERP) :
    (feedIter l ch fl).lexer.token = [] := by
  revert h
  simp only [feedIter]
  split_ifs with h1 h2 h3
  · intro _
    rfl
  · intro _
    rfl
  · intro _
    rfl
  · intro h
    exfalso
    have hns := lexTable_not_start l.state (ch % 256) (Nat.mod_lt _ (by norm_num))
    rcases h with h | h
    · exact hns.1 h
    · exact hns.2 h

theorem feedLoop_succ_wf (n : Nat) (l : JSONLexer) (ch : Nat) (fl : Bool)
    (h : (feedLoop (n + 1) l ch fl).lexer.state = IN_START ∨
      (feedLoop (n + 1) l ch fl).lexer.state = IN_START_INTERP) :
    (feedLoop (n + 1) l ch fl).lexer.token = [] := by
  induction n generalizing l with
  | zero =>
    rw [feedLoop_succ_eq] at h ⊢
    by_cases ha : (feedIter l ch fl).again = true
    · simp only [ha, if_true, feedLoop_zero] at h ⊢
      exact feedIter_wf l ch fl h
    · simp only [ha, if_false, Bool.false_eq_true] at h ⊢
      exact feedIter_wf l ch fl h
  | succ m ih =>
    rw [feedLoop_succ_eq] at h ⊢
    by_cases ha : (feedIter l ch fl).again = true
    · simp only [ha, if_true] at h ⊢
      exact ih _ h
    · simp only [ha, if_false, Bool.false_eq_true] at h ⊢
      exact feedIter_wf l ch fl h

theorem feed_char_wf (l : JSONLexer) (ch : Nat) (fl : Bool)
    (hstart : l.start_state = IN_START ∨ l.start_state = IN_START_INTERP) :
    wfLexer (json_lexer_feed_char l ch fl).1 := by
  unfold wfLexer
  rw [json_lexer_feed_char_eq]
  have hpres : (feedLoop 2 (posUpd l ch) ch fl).lexer.start_state =
      l.start_state := by
    rw [feedLoop_start_state_pres, posUpd_start_state]
  have habort := (feedLoop_len 2 (posUpd l ch) ch fl).2
  split_ifs with h1 h2
  · intro _
    exact habort h1
  · intro _
    rfl
  · intro heq
    have hss : (feedLoop 2 (posUpd l ch) ch fl).lexer.state = IN_START ∨
        (feedLoop 2 (posUpd l ch) ch fl).lexer.state = IN_START_INTERP := by
      rw [heq, hpres]
      exact hstart
    exact feedLoop_succ_wf 1 (posUpd l ch) ch fl hss

theorem feed_wf (bs : List Nat) :
    ∀ l : JSONLexer,
      l.start_state = IN_START ∨ l.start_state = IN_START_INTERP →
      wfLexer l → wfLexer (json_lexer_feed l bs).1 := by
  induction bs with
  | nil => exact fun l _ h => h
  | cons c rest ih =>
    intro l hstart _
    simp only [json_lexer_feed]
    exact ih _ (by rw [feed_char_start_pres]; exact hstart)
      (feed_char_wf l c false hstart)

theorem flush_wf (l : JSONLexer)
    (hstart : l.start_state = IN_START ∨ l.start_state = IN_START_INTERP)
    (h : wfLexer l) : wfLexer (json_lexer_flush l).1 := by
  rw [json_lexer_flush_eq]
  split_ifs with hs
  · exact feed_char_wf l 0 true hstart
  · exact h

theorem json_lexer_init_wf (b : Bool) : wfLexer (json_lexer_init b) :=
  fun _ => rfl

/-- Every lexer reachable from `json_lexer_init` through feed and flush
calls has an empty buffer whenever it sits in its start state — the
hypothesis under which the flush claim is stated. -/
theorem runOps_wf (ops : List LexOp) :
    ∀ l : JSONLexer,
      l.start_state = IN_START ∨ l.start_state = IN_START_INTERP →
      wfLexer l → wfLexer (runOps l ops).1 := by
  induction ops with
  | nil => exact fun l _ h => h
  | cons op rest ih =>
    intro l hstart h
    cases op with
    | feedBytes bs =>
      simp only [runOps]
      exact ih _ (by rw [feed_start_pres]; exact hstart) (feed_wf bs l hstart h)
    | flushAll =>
      simp only [runOps]
      exact ih _ (by rw [flush_start_pres]; exact hstart) (flush_wf l hstart h)

/-- C5: feeding `12` and flushing emits an integer token `12` then the
end-of-input token; feeding `1e` and flushing emits an error token `1e`
then the end-of-input token; and for every lexer whose buffer is empty
whenever it sits in its start state, the flush ends with the end-of-input
token carrying empty text and the current position, whether or not a
partial token was pending. -/
theorem c5_flush_behavior (lexer : JSONLexer)
    (hwf : lexer.state = lexer.start_state → lexer.token = []) :
    ((json_lexer_feed (json_lexer_init false) [49, 50]).2 ++
        (json_lexer_flush (json_lexer_feed (json_lexer_init false) [49, 50]).1).2 =
      [⟨JSON_INTEGER, [49, 50], 3, 0⟩, ⟨JSON_END_OF_INPUT, [], 3, 0⟩]) ∧
    ((json_lexer_feed (json_lexer_init false) [49, 101]).2 ++
        (json_lexer_flush (json_lexer_feed (json_lexer_init false) [49, 101]).1).2 =
      [⟨JSON_ERROR, [49, 101], 3, 0⟩, ⟨JSON_END_OF_INPUT, [], 3, 0⟩]) ∧
    ∃ ts, (json_lexer_flush lexer).2 =
      ts ++ [⟨JSON_END_OF_INPUT, [], (json_lexer_flush lexer).1.x,
        (json_lexer_flush lexer).1.y⟩] := by
  refine ⟨by decide, by decide, ?_⟩
  rw [json_lexer_flush_eq]
  by_cases h : lexer.state ≠ lexer.start_state
  · rw [if_pos h]
    exact ⟨(json_lexer_feed_char lexer 0 true).2, by simp [flush_feed_char_token]⟩
  · rw [if_neg h]
    refine ⟨[], ?_⟩
    have ht : lexer.token = [] := hwf (not_not.mp h)
    simp [ht]

/-- C5 witness at the freshly initialized lexer. -/
theorem c5_flush_behavior_witness :
    ((json_lexer_feed (json_lexer_init false) [49, 50]).2 ++
        (json_lexer_flush (json_lexer_feed (json_lexer_init false) [49, 50]).1).2 =
      [⟨JSON_INTEGER, [49, 50], 3, 0⟩, ⟨JSON_END_OF_INPUT, [], 3, 0⟩]) ∧
    ((json_lexer_feed (json_lexer_init false) [49, 101]).2 ++
        (json_lexer_flush (json_lexer_feed (json_lexer_init false) [49, 101]).1).2 =
      [⟨JSON_ERROR, [49, 101], 3, 0⟩, ⟨JSON_END_OF_INPUT, [], 3, 0⟩]) ∧
    ∃ ts, (json_lexer_flush (json_lexer_init false)).2 =
      ts ++ [⟨JSON_END_OF_INPUT, [],
        (json_lexer_flush (json_lexer_init false)).1.x,
        (json_lexer_flush (json_lexer_init false)).1.y⟩] :=
  c5_flush_behavior (json_lexer_init false) (fun _ => rfl)

end JsonLexer
